import Mathlib

/-!
Shallow embedding of OtKeep's database layer (src/database.rs), tree-root
resolution (src/lib.rs), script invocation (src/run.rs) and the CLI glue in
src/bin/okeep.rs and src/bin/otrun.rs.

Modelling conventions:
* SQLite tables become Lean lists.  The `blobs` table is a `List (Option Bytes)`:
  the row with rowid `i` (1-based, as in SQLite) is the list entry at index
  `i - 1`, and a `none` body is a tombstoned (nullified) blob.  Since no
  operation ever deletes a `blobs` row, rowids stay contiguous `1..len` and
  `last_insert_rowid` after an insert is the new length.
* The schema file `create_tables.sql` is not under src/ (it is pulled in with
  `include_str!`).  Its constraints are modelled from the spec, section 6:
  `blobs (id, nullable content)` — no uniqueness on content;
  `trees (id, unique path string)`;
  `tree_scripts` / `tree_files` `(tree id, blob id, name, optional description,
  unique per tree+name)`.
* A failing SQL statement inside a transaction rolls the transaction back, so a
  fallible operation is an `Except` whose error case leaves the state untouched.
* Filesystem paths are lists of components from the filesystem root
  (`[]` is the root `/`); `Path::parent` drops the last component and is `none`
  at the root, exactly as `List.dropLast` guarded on the empty list.
-/

/-- Byte strings (`Vec<u8>` in the source). -/
abbrev Bytes := List Nat

/-- Filesystem path, as its components below the filesystem root. -/
abbrev PathT := List String

/-- One row of `tree_scripts` or `tree_files`:
`(tree_id, name, blob_id, desc)` in src/database.rs. -/
structure Binding where
  tree_id : Nat
  name : String
  blob_id : Nat
  desc : Option String
deriving DecidableEq

/-- The whole persisted state: the four tables of otkeep.sqlite3
(spec section 6; `Database` in src/database.rs). -/
structure Database where
  blobs : List (Option Bytes)
  trees : List (Nat × PathT)
  tree_scripts : List Binding
  tree_files : List Binding
deriving DecidableEq

/-- Error kinds surfaced by the database layer (anyhow bail sites and
rusqlite failures in src/database.rs). -/
inductive DBErr where
  | duplicateName
  | noSuchScript
  | noSuchFile
  | noSuchScriptForCurrentTree
  | notFound
deriving DecidableEq

/-- The freshly loaded, empty database. -/
def Database.empty : Database := ⟨[], [], [], []⟩

/-- Row of the `blobs` table with the given 1-based rowid, if allocated. -/
def Database.blob_row (db : Database) (id : Nat) : Option (Option Bytes) :=
  db.blobs[id - 1]?

/-- Embeds `Database::fetch_blob` (src/database.rs:102):
`SELECT body FROM blobs WHERE _rowid_=?` read into a `Vec<u8>`; a missing row
or a NULL body both make `query_row` fail. -/
def Database.fetch_blob (db : Database) (id : Nat) : Except DBErr Bytes :=
  match db.blob_row id with
  | some (some b) => .ok b
  | _ => .error .notFound

/-- Embeds `Database::blob_is_null` (src/database.rs:91): reads the body as an
`Option<Vec<u8>>` and reports whether it is NULL; fails if the row is absent. -/
def Database.blob_is_null (db : Database) (id : Nat) : Except DBErr Bool :=
  match db.blob_row id with
  | some b => .ok b.isNone
  | none => .error .notFound

/-- Embeds `Database::blobs_table_len` (src/database.rs:281):
`SELECT COUNT() FROM blobs`. -/
def Database.blobs_table_len (db : Database) : Nat := db.blobs.length

/-- Embeds `Database::query_script_id_from_name` (src/database.rs:110):
`SELECT blob_id FROM tree_scripts WHERE tree_id=?1 AND name=?2` (first row). -/
def Database.query_script_id_from_name (db : Database) (tree_id : Nat)
    (name : String) : Option Nat :=
  (db.tree_scripts.find? (fun b => b.tree_id == tree_id && b.name == name)).map
    (·.blob_id)

/-- Embeds `Database::query_file_id_from_name` (src/database.rs:120). -/
def Database.query_file_id_from_name (db : Database) (tree_id : Nat)
    (name : String) : Option Nat :=
  (db.tree_files.find? (fun b => b.tree_id == tree_id && b.name == name)).map
    (·.blob_id)

/-- Whether a `tree_scripts` row with this `(tree_id, name)` key exists. -/
def Database.script_binding_exists (db : Database) (tree_id : Nat)
    (name : String) : Bool :=
  db.tree_scripts.any (fun b => b.tree_id == tree_id && b.name == name)

/-- Whether a `tree_files` row with this `(tree_id, name)` key exists. -/
def Database.file_binding_exists (db : Database) (tree_id : Nat)
    (name : String) : Bool :=
  db.tree_files.any (fun b => b.tree_id == tree_id && b.name == name)

/-- Embeds `Database::add_script` (src/database.rs:41): in one transaction,
`INSERT INTO blobs (body) VALUES (?)` (always a fresh row; the modelled schema
puts no constraint on blob content), take `last_insert_rowid`, then
`INSERT INTO tree_scripts (tree_id, name, blob_id)`.  When a row with the same
`(tree_id, name)` already exists the second insert violates the modelled
UNIQUE(tree_id, name) constraint and the whole transaction rolls back, so the
net effect is an error with the state unchanged. -/
def Database.add_script (db : Database) (tree_id : Nat) (name : String)
    (body : Bytes) : Except DBErr Database :=
  if db.script_binding_exists tree_id name then .error .duplicateName
  else
    .ok { db with
          blobs := db.blobs ++ [some body],
          tree_scripts :=
            db.tree_scripts ++ [⟨tree_id, name, db.blobs.length + 1, none⟩] }

/-- Embeds `Database::update_script` (src/database.rs:53): look up the blob id
bound to `(tree_id, name)`; if absent, bail "No such script"; otherwise
`UPDATE blobs SET body=?1 WHERE _rowid_=?2`, which overwrites the content in
place (a no-op when the rowid is dangling, like SQL updating zero rows). -/
def Database.update_script (db : Database) (tree_id : Nat) (name : String)
    (body : Bytes) : Except DBErr Database :=
  match db.query_script_id_from_name tree_id name with
  | some blob_id => .ok { db with blobs := db.blobs.set (blob_id - 1) (some body) }
  | none => .error .noSuchScript

/-- Embeds `Database::remove_script` (src/database.rs:68):
`DELETE FROM tree_scripts WHERE tree_id=?1 AND name=?2`, returning whether any
row was deleted. -/
def Database.remove_script (db : Database) (tree_id : Nat) (name : String) :
    Database × Bool :=
  let kept := db.tree_scripts.filter
    (fun b => !(b.tree_id == tree_id && b.name == name))
  ({ db with tree_scripts := kept }, kept.length < db.tree_scripts.length)

/-- Embeds `Database::query_tree` (src/database.rs:164):
`SELECT _rowid_ FROM trees where root=?` (first row, exact path match). -/
def Database.query_tree (db : Database) (p : PathT) : Option Nat :=
  (db.trees.find? (fun tr => tr.2 == p)).map (·.1)

/-- Next rowid handed out by SQLite for the `trees` table: one more than the
largest rowid currently in the table. -/
def Database.fresh_tree_id (db : Database) : Nat :=
  (db.trees.map (·.1)).foldr max 0 + 1

/-- Embeds `Database::add_new_tree` (src/database.rs:175):
`INSERT INTO trees (root) VALUES (?)`; the modelled UNIQUE constraint on `root`
(spec section 6) makes the insert fail when the path is already registered. -/
def Database.add_new_tree (db : Database) (p : PathT) : Except DBErr Database :=
  if db.trees.any (fun tr => tr.2 == p) then .error .duplicateName
  else .ok { db with trees := db.trees ++ [(db.fresh_tree_id, p)] }

/-- Embeds `Database::remove_tree` (src/database.rs:182): in one transaction,
`DELETE FROM trees WHERE _rowid_=?` then
`DELETE FROM tree_scripts WHERE tree_id=?`.  Nothing else is touched. -/
def Database.remove_tree (db : Database) (tree_id : Nat) : Database :=
  { db with
    trees := db.trees.filter (fun tr => !(tr.1 == tree_id)),
    tree_scripts := db.tree_scripts.filter (fun b => !(b.tree_id == tree_id)) }

/-- Embeds `Database::add_script_description` (src/database.rs:190):
`UPDATE tree_scripts SET desc=?1 WHERE tree_id=?2 AND name=?3`
(silently updates zero rows when the key is absent). -/
def Database.add_script_description (db : Database) (tree_id : Nat)
    (name : String) (d : String) : Database :=
  { db with
    tree_scripts := db.tree_scripts.map
      (fun b => if b.tree_id == tree_id && b.name == name
                then { b with desc := some d } else b) }

/-- Embeds `Database::get_script_by_name` (src/database.rs:218): resolve the
binding then fetch its blob. -/
def Database.get_script_by_name (db : Database) (tree_id : Nat)
    (name : String) : Except DBErr Bytes :=
  match db.query_script_id_from_name tree_id name with
  | some id => db.fetch_blob id
  | none => .error .noSuchScript

/-- Embeds `Database::get_file_by_name` (src/database.rs:225). -/
def Database.get_file_by_name (db : Database) (tree_id : Nat)
    (name : String) : Except DBErr Bytes :=
  match db.query_file_id_from_name tree_id name with
  | some id => db.fetch_blob id
  | none => .error .noSuchFile

/-- Embeds `Database::rename_script` (src/database.rs:232):
`UPDATE tree_scripts SET name=?1 WHERE name=?2` — the WHERE clause matches by
name alone, with no tree_id condition.  Under the modelled
UNIQUE(tree_id, name) constraint (spec section 6) the UPDATE aborts — leaving
every row as it was — whenever some tree holding an `old_name` script already
holds a script named `new_name`; renaming a name to itself replaces each row
with itself and conflicts with nothing. -/
def Database.rename_script (db : Database) (old_name new_name : String) :
    Except DBErr Database :=
  if old_name != new_name
      && db.tree_scripts.any (fun b => b.name == old_name
           && db.tree_scripts.any
               (fun c => c.tree_id == b.tree_id && c.name == new_name))
  then .error .duplicateName
  else
    .ok { db with
          tree_scripts := db.tree_scripts.map
            (fun b => if b.name == old_name then { b with name := new_name }
                      else b) }

/-- Embeds `Database::add_file` (src/database.rs:240): in one transaction,
`INSERT OR REPLACE INTO blobs (body) VALUES (?)` (no constraint on blob
content in the modelled schema, so this always appends a fresh row), then
`INSERT OR REPLACE INTO tree_files (tree_id, name, blob_id)`: on a
UNIQUE(tree_id, name) conflict the old row is deleted and the new row (with a
NULL desc) is inserted.  Never fails. -/
def Database.add_file (db : Database) (tree_id : Nat) (name : String)
    (body : Bytes) : Database :=
  { db with
    blobs := db.blobs ++ [some body],
    tree_files :=
      db.tree_files.filter (fun b => !(b.tree_id == tree_id && b.name == name))
        ++ [⟨tree_id, name, db.blobs.length + 1, none⟩] }

/-- Modelled from the spec: the SQL in `clone_tree_table.sql` is not under
src/ (pulled in with `include_str!` by `Database::clone_tree`,
src/database.rs:255).  Spec section 4.3, `clone_all`: copies every script
binding row from `src_tree` to `dst_tree`, preserving blob references (no
content duplication), overwriting on `(dst_tree, name)` collision. -/
def Database.clone_tree (db : Database) (src_tree dst_tree : Nat) : Database :=
  let copied := (db.tree_scripts.filter (fun b => b.tree_id == src_tree)).map
    (fun b => { b with tree_id := dst_tree })
  { db with
    tree_scripts :=
      db.tree_scripts.filter
        (fun b => !(b.tree_id == dst_tree && copied.any (fun c => c.name == b.name)))
        ++ copied }

/-- Embeds `Database::tree_script_blob_ids` (src/database.rs:268):
`SELECT blob_id FROM tree_scripts`, collected into a set (here a list; only
membership is ever used). -/
def Database.tree_script_blob_ids (db : Database) : List Nat :=
  db.tree_scripts.map (·.blob_id)

/-- Embeds `Database::nullify_blob` (src/database.rs:288):
`UPDATE blobs SET body = NULL where _rowid_=?` — the row stays allocated, only
its content becomes NULL (no-op on a dangling rowid). -/
def Database.nullify_blob (db : Database) (id : Nat) : Database :=
  { db with blobs := db.blobs.set (id - 1) none }

/-! Script invocation (src/run.rs, unix variant) and the otrun CLI glue
(src/bin/otrun.rs). -/

/-- The observable shape of the child-process invocation built by
`run_script` in src/run.rs: the program handed to `Command::new`, its argument
vector, and the environment variables explicitly added on top of the inherited
environment. -/
structure Cmd where
  program : String
  args : List String
  env_vars : List (String × String)
deriving DecidableEq

/-- Exit status of a child process: `ExitStatus::code()` is `none` when the
child was killed by a signal. -/
structure ChildStatus where
  code : Option Int
deriving DecidableEq

/-- Embeds `run_script` in src/run.rs (unix variant of `script_command`):
write the blob to a temp file, then `Command::new("sh")`,
`cmd.arg(path).args(args).status()`.  No environment variable is added. -/
def run_script_cmd (temp_path : String) (user_args : List String) : Cmd :=
  { program := "sh", args := temp_path :: user_args, env_vars := [] }

/-- Embeds `Database::run_script` (src/database.rs:75): resolve the blob id of
`(tree_id, name)` (bailing with the distinguished `NoSuchScriptForCurrentTree`
when absent), fetch the blob, then hand the invocation to the OS.  The OS is
abstracted as `child`, mapping the built command to the child's exit status;
`temp_path` is the temp-file path chosen by src/run.rs. -/
def Database.run_script (db : Database) (tree_id : Nat) (name : String)
    (temp_path : String) (user_args : List String)
    (child : Cmd → ChildStatus) : Except DBErr ChildStatus :=
  match db.query_script_id_from_name tree_id name with
  | some id =>
    match db.fetch_blob id with
    | .ok _ => .ok (child (run_script_cmd temp_path user_args))
    | .error e => .error e
  | none => .error .noSuchScriptForCurrentTree

/-- Embeds `run` in src/bin/otrun.rs:46: on success return
`status.code().unwrap_or(1)`; a `NoSuchScriptForCurrentTree` error prints the
script list and returns `Ok(1)`; any other error propagates.  `main`
(src/bin/otrun.rs:9) passes the `Ok` value verbatim to `std::process::exit`. -/
def otrun_run (db : Database) (tree_id : Nat) (name : String)
    (temp_path : String) (user_args : List String)
    (child : Cmd → ChildStatus) : Except DBErr Int :=
  match db.run_script tree_id name temp_path user_args child with
  | .ok status => .ok (status.code.getD 1)
  | .error .noSuchScriptForCurrentTree => .ok 1
  | .error e => .error e

/-! Tree-root resolution (src/lib.rs:37, `find_root_for_path`). -/

/-- Embeds the ancestor-walking loop of `find_root_for_path` (src/lib.rs:37):
try `query_tree` on the path; on a miss step to `Path::parent` (drop the last
component; `none` at the filesystem root) and repeat.  The walk is phrased
structurally on a fuel argument; each step shortens the path by exactly one
component, so fuel `p.length` never runs out before the root is reached. -/
def find_root_go (db : Database) : Nat → PathT → Option (Nat × PathT)
  | fuel + 1, a :: as =>
    (match db.query_tree (a :: as) with
     | some id => some (id, a :: as)
     | none => find_root_go db fuel (a :: as).dropLast)
  | _, p =>
    (match db.query_tree p with
     | some id => some (id, p)
     | none => none)

/-- Embeds `find_root_for_path` (src/lib.rs:37). -/
def find_root_for_path (db : Database) (p : PathT) : Option (Nat × PathT) :=
  find_root_go db p.length p

/-- The chain of paths the resolution loop visits: `p` itself, then each
parent up to and including the filesystem root `[]`. -/
def ancestors_go : Nat → PathT → List PathT
  | _, [] => [[]]
  | 0, p => [p]
  | fuel + 1, p@(_ :: _) => p :: ancestors_go fuel p.dropLast

/-- All ancestors of `p`, nearest first, ending at the filesystem root. -/
def ancestors (p : PathT) : List PathT := ancestors_go p.length p

/-! The orphan-blob sweep of `okeep prune blobs`
(src/bin/okeep.rs:197, `Sub::Prune(PruneSubCmd::Blobs)` arm). -/

/-- One iteration of the prune-blobs loop for a given rowid: skip rowids in
the pre-computed referenced set, skip already-NULL blobs, otherwise show the
blob and nullify it exactly when the operator answers yes. -/
def prune_blobs_step (refs : List Nat) (answers : Nat → Bool) (db : Database)
    (rowid : Nat) : Database :=
  if refs.contains rowid then db
  else
    match db.blob_row rowid with
    | some (some _) => if answers rowid then db.nullify_blob rowid else db
    | _ => db

/-- Embeds the `Sub::Prune(PruneSubCmd::Blobs)` arm (src/bin/okeep.rs:197):
`tree_blob_refs = db.tree_script_blob_ids()` and `len = db.blobs_table_len()`
are computed once up front, then `for rowid in 1..=len` runs the interactive
step.  The operator's per-rowid confirmations are the `answers` function. -/
def prune_blobs (db : Database) (answers : Nat → Bool) : Database :=
  let refs := db.tree_script_blob_ids
  (List.range' 1 db.blobs_table_len).foldl (prune_blobs_step refs answers) db

/-! A state machine over every mutating database operation, for invariants
that quantify over arbitrary operation sequences. -/

/-- One mutating operation of the database layer, as dispatched by the CLIs. -/
inductive Op where
  | addScript (tree_id : Nat) (name : String) (body : Bytes)
  | updateScript (tree_id : Nat) (name : String) (body : Bytes)
  | removeScript (tree_id : Nat) (name : String)
  | addNewTree (p : PathT)
  | removeTree (tree_id : Nat)
  | addScriptDescription (tree_id : Nat) (name : String) (d : String)
  | renameScript (old_name new_name : String)
  | addFile (tree_id : Nat) (name : String) (body : Bytes)
  | cloneTree (src_tree dst_tree : Nat)
  | nullifyBlob (id : Nat)
  | pruneBlobs (answers : Nat → Bool)

/-- Net effect of one operation on the persisted state; a failed operation
(rolled-back transaction) leaves the state unchanged. -/
def apply_op (db : Database) : Op → Database
  | .addScript t n b => (db.add_script t n b).toOption.getD db
  | .updateScript t n b => (db.update_script t n b).toOption.getD db
  | .removeScript t n => (db.remove_script t n).1
  | .addNewTree p => (db.add_new_tree p).toOption.getD db
  | .removeTree t => db.remove_tree t
  | .addScriptDescription t n d => db.add_script_description t n d
  | .renameScript o nw => (db.rename_script o nw).toOption.getD db
  | .addFile t n b => db.add_file t n b
  | .cloneTree s d => db.clone_tree s d
  | .nullifyBlob i => db.nullify_blob i
  | .pruneBlobs answers => prune_blobs db answers

/-! Concrete states used to instantiate the theorems below. -/

/-- Result of adding the script "a" with body `[104]` to the empty database. -/
def db_one_script : Database :=
  (Database.empty.add_script 1 "a" [104]).toOption.getD Database.empty

/-- Result of then adding the script "b" with the identical body `[104]`. -/
def db_two_scripts : Database :=
  (db_one_script.add_script 1 "b" [104]).toOption.getD db_one_script

/-- A tree with one registered root at /a. -/
def db_one_tree : Database := ⟨[], [(1, ["a"])], [], []⟩

/-- One blob, referenced only by a script binding. -/
def db_script_ref : Database := ⟨[some [104]], [], [⟨1, "build", 1, none⟩], []⟩

/-- One blob, referenced only by a file binding (no script references it). -/
def db_file_ref : Database := ⟨[some [104, 105]], [], [], [⟨1, "f", 1, none⟩]⟩

/-- A database with one saved file "a" (blob 1). -/
def db_one_file : Database := Database.empty.add_file 1 "a" [1]

/-- Both a script binding and a file binding named "a" under tree 1. -/
def db_dup_both : Database :=
  (db_one_file.add_script 1 "a" [7]).toOption.getD db_one_file

/-!
C1. The spec claims blob storage deduplicates by exact byte content.  The code
does not: `add_script` runs a plain `INSERT INTO blobs` and `add_file` an
`INSERT OR REPLACE INTO blobs`, and the schema (spec section 6) puts no
uniqueness constraint on blob content, so every add allocates a fresh row even
for bytes already present.
-/

/-- C1 counterexample: adding the same bytes `[104]` twice (under two names)
assigns the distinct blob ids 1 and 2 — not the same id — and the blob row
count grows from 1 to 2 even though no new distinct content was stored. -/
theorem add_script_no_dedup_cex :
    Database.query_script_id_from_name db_two_scripts 1 "a" = some 1 ∧
    Database.query_script_id_from_name db_two_scripts 1 "b" = some 2 ∧
    db_one_script.blobs_table_len = 1 ∧
    db_two_scripts.blobs_table_len = 2 ∧
    ¬ (Database.query_script_id_from_name db_two_scripts 1 "a"
         = Database.query_script_id_from_name db_two_scripts 1 "b"
       ∧ db_two_scripts.blobs_table_len = db_one_script.blobs_table_len) := by
  decide

/-- A `(tree, name)` key never matches inside the list that just had every
row with that key filtered out. -/
theorem find?_key_filter_not (l : List Binding) (t : Nat) (n : String) :
    (l.filter (fun b => !(b.tree_id == t && b.name == n))).find?
      (fun b => b.tree_id == t && b.name == n) = none := by
  rw [List.find?_eq_none]
  intro x hx
  have h2 := (List.mem_filter.1 hx).2
  simp at h2 ⊢
  tauto

/-- `find?` misses on a list whose `any` is false for the same predicate. -/
theorem find?_key_of_no_binding {l : List Binding} {p : Binding → Bool}
    (h : l.any p = false) : l.find? p = none := by
  rw [List.find?_eq_none]
  intro x hx hpx
  exact absurd (List.any_eq_true.2 ⟨x, hx, hpx⟩) (by simp [h])

/-- After `add_file`, the `(tree, name)` lookup resolves to the freshly
inserted blob row (the replaced binding, if any, is gone). -/
theorem query_file_add_file (db : Database) (t : Nat) (n : String)
    (body : Bytes) :
    Database.query_file_id_from_name (db.add_file t n body) t n
      = some (db.blobs.length + 1) := by
  simp only [Database.query_file_id_from_name, Database.add_file]
  rw [List.find?_append, find?_key_filter_not]
  simp

/-- A successful `add_script` means the key was free, and its net effect is to
append the fresh blob row and the new binding. -/
theorem add_script_ok (db db' : Database) (t : Nat) (n : String) (body : Bytes)
    (h : db.add_script t n body = .ok db') :
    db.script_binding_exists t n = false ∧
    db' = { db with
            blobs := db.blobs ++ [some body],
            tree_scripts :=
              db.tree_scripts ++ [⟨t, n, db.blobs.length + 1, none⟩] } := by
  unfold Database.add_script at h
  split at h
  case isTrue => exact absurd h (by simp)
  case isFalse hc =>
    cases h
    exact ⟨by simpa using hc, rfl⟩

/-- After a successful `add_script`, the `(tree, name)` lookup resolves to
the freshly inserted blob row. -/
theorem query_script_add_script (db db' : Database) (t : Nat) (n : String)
    (body : Bytes) (h : db.add_script t n body = .ok db') :
    db'.query_script_id_from_name t n = some (db.blobs.length + 1) := by
  obtain ⟨hex, rfl⟩ := add_script_ok db db' t n body h
  simp only [Database.query_script_id_from_name]
  rw [List.find?_append, find?_key_of_no_binding hex]
  simp

/-- C1 (amended): every add allocates a fresh blob row: the blob table grows
by exactly one per add — regardless of whether identical content is already
present — the new binding references the fresh row id, and storing the same
bytes a second time (for files generally, and for scripts whenever both adds
succeed) hands out a strictly larger, distinct blob id while the first
binding keeps its own. -/
theorem add_inserts_fresh_blob_row (db : Database) (t : Nat) (n : String)
    (body : Bytes) :
    (db.add_file t n body).blobs_table_len = db.blobs_table_len + 1 ∧
    (db.add_file t n body).blob_row (db.blobs_table_len + 1) = some (some body) ∧
    Database.query_file_id_from_name (db.add_file t n body) t n
      = some (db.blobs_table_len + 1) ∧
    (∀ t' : Nat, ∀ n' : String,
      Database.query_file_id_from_name
          ((db.add_file t n body).add_file t' n' body) t' n'
        = some (db.blobs_table_len + 2) ∧
      Database.query_file_id_from_name
          ((db.add_file t n body).add_file t' n' body) t' n'
        ≠ Database.query_file_id_from_name (db.add_file t n body) t n) ∧
    (∀ db', db.add_script t n body = .ok db' →
      db'.blobs_table_len = db.blobs_table_len + 1 ∧
      db'.blob_row (db.blobs_table_len + 1) = some (some body) ∧
      db'.query_script_id_from_name t n = some (db.blobs_table_len + 1) ∧
      (∀ n' : String, ∀ db'', db'.add_script t n' body = .ok db'' →
        db''.query_script_id_from_name t n' = some (db.blobs_table_len + 2) ∧
        db''.query_script_id_from_name t n = some (db.blobs_table_len + 1) ∧
        db''.query_script_id_from_name t n'
          ≠ db''.query_script_id_from_name t n)) := by
  have hfile1 := query_file_add_file db t n body
  refine ⟨by simp [Database.add_file, Database.blobs_table_len],
    by simp [Database.add_file, Database.blob_row, Database.blobs_table_len,
      List.getElem?_concat_length],
    by simpa [Database.blobs_table_len] using hfile1, ?_, ?_⟩
  · intro t' n'
    have hfile2 := query_file_add_file (db.add_file t n body) t' n' body
    have hlen : (db.add_file t n body).blobs.length = db.blobs.length + 1 := by
      simp [Database.add_file]
    rw [hlen] at hfile2
    constructor
    · rw [hfile2]
      simp only [Database.blobs_table_len, Option.some.injEq]
      try omega
    · rw [hfile2, hfile1]
      simp only [ne_eq, Option.some.injEq]
      try omega
  · intro db' h
    have hq1 := query_script_add_script db db' t n body h
    obtain ⟨hex, hdb'⟩ := add_script_ok db db' t n body h
    refine ⟨by rw [hdb']; simp [Database.blobs_table_len],
      by rw [hdb']; simp [Database.blob_row, Database.blobs_table_len,
        List.getElem?_concat_length],
      by simpa [Database.blobs_table_len] using hq1, ?_⟩
    intro n' db'' h2
    have hq2 := query_script_add_script db' db'' t n' body h2
    have hlen' : db'.blobs.length = db.blobs.length + 1 := by
      rw [hdb']
      simp
    rw [hlen'] at hq2
    obtain ⟨hex2, hdb''⟩ := add_script_ok db' db'' t n' body h2
    have hqn : db''.query_script_id_from_name t n
        = some (db.blobs.length + 1) := by
      rw [hdb'']
      simp only [Database.query_script_id_from_name] at hq1 ⊢
      rw [List.find?_append]
      rcases hfind : db'.tree_scripts.find?
          (fun b => b.tree_id == t && b.name == n) with _ | x
      · rw [hfind] at hq1
        simp at hq1
      · rw [hfind] at hq1
        rw [hfind, Option.or_some]
        exact hq1
    refine ⟨?_, by simpa [Database.blobs_table_len] using hqn, ?_⟩
    · rw [hq2]
      simp only [Database.blobs_table_len, Option.some.injEq]
      try omega
    · rw [hq2, hqn]
      simp only [ne_eq, Option.some.injEq]
      try omega

/-- Witness for `add_inserts_fresh_blob_row`: two adds of the identical bytes
`[104]` from the empty database hand out blob ids 1 and then 2, and the two
bindings' ids differ. -/
theorem add_inserts_fresh_blob_row_witness :
    db_one_script.query_script_id_from_name 1 "a"
      = some (Database.empty.blobs_table_len + 1) ∧
    db_two_scripts.query_script_id_from_name 1 "b"
      = some (Database.empty.blobs_table_len + 2) ∧
    db_two_scripts.query_script_id_from_name 1 "b"
      ≠ db_two_scripts.query_script_id_from_name 1 "a" :=
  have hE := (add_inserts_fresh_blob_row Database.empty 1 "a" [104]).2.2.2.2
    db_one_script (by rfl)
  have hF := hE.2.2.2 "b" db_two_scripts (by rfl)
  ⟨hE.2.2.1, hF.1, hF.2.2⟩

/-!
C5. The spec claims the child is invoked with arguments
`[temp-path, ...user-args]` and with one environment variable holding the
resolved tree root.  The argument order is right, but `run_script` in
src/run.rs adds no environment variable at all (`Command::new("sh")` then
`cmd.arg(path).args(args).status()`), and `Database::run_script` is not even
given the tree-root path.
-/

/-- C5 counterexample: at a concrete invocation, no environment variable
carrying the tree root (or anything else) is set on the child command. -/
theorem run_script_no_env_var_cex :
    ¬ ∃ v : String,
        (v, "/tree/root") ∈ (run_script_cmd "/tmp/script.sh" ["x"]).env_vars := by
  rintro ⟨v, hv⟩
  simp [run_script_cmd] at hv

/-- C5 (amended): for every script execution, the child process is invoked as
`sh` with argument order `[temp-path, ...user-args]`, and with no
environment variable added to the inherited environment. -/
theorem run_script_invocation (db : Database) (t : Nat) (n : String)
    (i : Nat) (b : Bytes) (temp_path : String) (user_args : List String)
    (child : Cmd → ChildStatus)
    (h1 : db.query_script_id_from_name t n = some i)
    (h2 : db.fetch_blob i = .ok b) :
    db.run_script t n temp_path user_args child
      = .ok (child { program := "sh", args := temp_path :: user_args,
                     env_vars := [] }) := by
  simp [Database.run_script, h1, h2, run_script_cmd]

/-- Witness for `run_script_invocation` on a one-script database. -/
theorem run_script_invocation_witness :
    Database.run_script db_script_ref 1 "build" "/tmp/s" ["x"]
        (fun _ => ⟨some 0⟩)
      = .ok ((fun _ => (⟨some 0⟩ : ChildStatus))
          ({ program := "sh", args := "/tmp/s" :: ["x"], env_vars := [] } : Cmd)) :=
  run_script_invocation db_script_ref 1 "build" 1 [104] "/tmp/s" ["x"]
    (fun _ => ⟨some 0⟩) (by decide) (by rfl)

/-!
C6. `rename_script` issues `UPDATE tree_scripts SET name=?1 WHERE name=?2`:
the match is by name alone, with no tree_id in the WHERE clause.  But under
the modelled UNIQUE(tree_id, name) constraint the UPDATE aborts — renaming
nothing — when some tree holding `old_name` already holds `new_name`, so the
claim's unconditional re-keying does not hold at those states.
-/

/-- Tree 1 holds the scripts "x" (blob 1) and "y" (blob 2): renaming "x" to
"y" would collide on the `(tree, name)` key. -/
def db_rename_clash : Database :=
  ⟨[some [1], some [2]], [], [⟨1, "x", 1, none⟩, ⟨1, "y", 2, none⟩], []⟩

/-- C6 counterexample: with tree 1 holding both "x" and "y", renaming "x" to
"y" violates the unique key, so the UPDATE fails with an error instead of
re-keying — "x" does not get its name set to "y". -/
theorem rename_script_collision_cex :
    Database.rename_script db_rename_clash "x" "y" = .error .duplicateName := by
  rfl

/-- C6 (amended): the rename fails (renaming nothing — the error return
carries no new state) exactly when it would collide: the names differ and
some tree holding an `old_name` script already holds a `new_name` script.
Whenever it succeeds, it re-keys by name alone: every script binding whose
name equals `old_name` — across all trees — gets its name set to `new_name`,
all other script bindings and all other fields (tree id, blob id,
description) are untouched, and files, blobs and trees are unchanged. -/
theorem rename_script_matches_by_name_only (db : Database)
    (old_name new_name : String) :
    (db.rename_script old_name new_name = .error .duplicateName ↔
      old_name ≠ new_name ∧
        ∃ b ∈ db.tree_scripts, b.name = old_name ∧
          ∃ c ∈ db.tree_scripts, c.tree_id = b.tree_id ∧ c.name = new_name) ∧
    ∀ db', db.rename_script old_name new_name = .ok db' →
      db'.tree_files = db.tree_files ∧
      db'.blobs = db.blobs ∧
      db'.trees = db.trees ∧
      ∀ k : Nat,
        db'.tree_scripts[k]?
          = db.tree_scripts[k]?.map
              (fun b => if b.name = old_name then { b with name := new_name }
                        else b) := by
  constructor
  · unfold Database.rename_script
    split
    case isTrue h =>
      constructor
      · intro _
        simpa [List.any_eq_true, ne_eq, and_assoc] using h
      · intro _
        rfl
    case isFalse h =>
      constructor
      · intro hcon
        exact absurd hcon (by simp)
      · intro hp
        refine absurd ?_ h
        simpa [List.any_eq_true, ne_eq, and_assoc] using hp
  · intro db' hok
    unfold Database.rename_script at hok
    split at hok
    · exact absurd hok (by simp)
    · cases hok
      refine ⟨rfl, rfl, rfl, fun k => ?_⟩
      simp only [List.getElem?_map]
      rcases db.tree_scripts[k]? with _ | b
      · rfl
      · simp only [Option.map_some']
        by_cases hb : b.name = old_name <;> simp [hb]

/-- Result of successfully renaming "x" to "z" in `db_rename_clash`. -/
def db_renamed : Database :=
  ⟨[some [1], some [2]], [], [⟨1, "z", 1, none⟩, ⟨1, "y", 2, none⟩], []⟩

/-- Witness for `rename_script_matches_by_name_only`: renaming "x" to "z"
(no collision) succeeds, keeps blobs, and re-keys row 0 to "z" with its tree
id, blob id and description intact. -/
theorem rename_script_matches_by_name_only_witness :
    db_renamed.blobs = db_rename_clash.blobs ∧
    db_renamed.tree_scripts[0]? = some ⟨1, "z", 1, none⟩ :=
  have h := (rename_script_matches_by_name_only db_rename_clash "x" "z").2
    db_renamed (by rfl)
  ⟨h.2.1, by rw [h.2.2.2 0]; rfl⟩

/-!
C7. src/bin/otrun.rs: `run` returns `Ok(status.code().unwrap_or(1))` and
`main` passes the `Ok` value straight to `std::process::exit`.
-/

/-- C7: a nonzero exit code from the executed script's child process is not an
error: otrun's own exit code is the child's code verbatim, and a child killed
by a signal (no exit code available) is reported as exit code 1. -/
theorem otrun_propagates_exit_code (db : Database) (t : Nat) (n : String)
    (i : Nat) (b : Bytes) (temp_path : String) (user_args : List String)
    (h1 : db.query_script_id_from_name t n = some i)
    (h2 : db.fetch_blob i = .ok b) :
    (∀ c : Int,
      otrun_run db t n temp_path user_args (fun _ => ⟨some c⟩) = .ok c) ∧
    otrun_run db t n temp_path user_args (fun _ => ⟨none⟩) = .ok 1 := by
  constructor
  · intro c
    simp [otrun_run, Database.run_script, h1, h2]
  · simp [otrun_run, Database.run_script, h1, h2]

/-- Witness for `otrun_propagates_exit_code`: the child exits 5 (nonzero), and
otrun exits 5; a signal-killed child yields exit code 1. -/
theorem otrun_propagates_exit_code_witness :
    otrun_run db_script_ref 1 "build" "/tmp/s" [] (fun _ => ⟨some 5⟩) = .ok 5 ∧
    otrun_run db_script_ref 1 "build" "/tmp/s" [] (fun _ => ⟨none⟩) = .ok 1 :=
  ⟨(otrun_propagates_exit_code db_script_ref 1 "build" 1 [104] "/tmp/s" []
      (by decide) (by rfl)).1 5,
   (otrun_propagates_exit_code db_script_ref 1 "build" 1 [104] "/tmp/s" []
      (by decide) (by rfl)).2⟩

/-!
C9. `Database::remove_tree` deletes exactly the tree row and that tree's
script bindings.
-/

/-- C9: unregistering a tree deletes the tree row and all script bindings of
that tree, and changes nothing else: blobs and file bindings are untouched,
and a tree row or script binding survives exactly when it belongs to a
different tree. -/
theorem remove_tree_frame (db : Database) (t : Nat) :
    (db.remove_tree t).blobs = db.blobs ∧
    (db.remove_tree t).tree_files = db.tree_files ∧
    (∀ tr : Nat × PathT,
      tr ∈ (db.remove_tree t).trees ↔ tr ∈ db.trees ∧ tr.1 ≠ t) ∧
    (∀ b : Binding,
      b ∈ (db.remove_tree t).tree_scripts ↔ b ∈ db.tree_scripts ∧ b.tree_id ≠ t) := by
  refine ⟨rfl, rfl, fun tr => ?_, fun b => ?_⟩ <;>
    simp [Database.remove_tree, List.mem_filter]

/-!
C4. `Database::update_script` resolves the bound blob id and overwrites that
blob row in place (`UPDATE blobs SET body=?1 WHERE _rowid_=?2`); the id is
kept, so any other binding sharing the id now reads the new content.
-/

/-- C4: updating a script overwrites its blob id's content in place without
changing any binding: the binding still resolves to the same blob id, and
fetching through every binding — script or file, any tree — that shares that
blob id now returns the new body. -/
theorem update_script_mutates_shared_blob (db db' : Database) (t : Nat)
    (n : String) (body : Bytes) (i : Nat)
    (hq : db.query_script_id_from_name t n = some i)
    (hvalid : i - 1 < db.blobs.length)
    (hupd : db.update_script t n body = .ok db') :
    db'.tree_scripts = db.tree_scripts ∧
    db'.tree_files = db.tree_files ∧
    db'.query_script_id_from_name t n = some i ∧
    ∀ b : Binding, b ∈ db'.tree_scripts ∨ b ∈ db'.tree_files →
      b.blob_id = i → db'.fetch_blob b.blob_id = .ok body := by
  unfold Database.update_script at hupd
  rw [hq] at hupd
  cases hupd
  refine ⟨rfl, rfl, hq, fun b _ hb => ?_⟩
  simp [Database.fetch_blob, Database.blob_row, hb,
    List.getElem?_set_self hvalid]

/-- Witness for `update_script_mutates_shared_blob`: updating "build" (blob 1)
to `[42]` makes fetching through the binding return `[42]`. -/
theorem update_script_mutates_shared_blob_witness :
    Database.tree_scripts ⟨[some [42]], [], [⟨1, "build", 1, none⟩], []⟩
        = db_script_ref.tree_scripts ∧
    Database.query_script_id_from_name
        ⟨[some [42]], [], [⟨1, "build", 1, none⟩], []⟩ 1 "build" = some 1 :=
  have h := update_script_mutates_shared_blob db_script_ref
    ⟨[some [42]], [], [⟨1, "build", 1, none⟩], []⟩ 1 "build" [42] 1
    (by decide) (by decide) (by rfl)
  ⟨h.1, h.2.2.1⟩

/-!
C8. On a duplicate `(tree, name)` key the two kinds differ: `add_script`'s
plain INSERT hits the modelled UNIQUE(tree_id, name) constraint and the
transaction rolls back (error, nothing changed), while `add_file` uses
`INSERT OR REPLACE` for the binding, so it silently replaces the existing file
binding — and still appends a fresh blob row.
-/

/-- C8 counterexample: saving a file under an already-bound `(tree, name)`
does not fail and does not leave the store unchanged: the blob table and the
file bindings both change. -/
theorem add_file_duplicate_replaces_cex :
    ¬ ((db_one_file.add_file 1 "a" [2]).blobs = db_one_file.blobs ∧
       (db_one_file.add_file 1 "a" [2]).tree_files = db_one_file.tree_files) := by
  decide

/-- C8 (amended): with a duplicate `(tree, name)` key of each kind present,
`add_script` fails with `DuplicateName` and — the transaction rolling back —
leaves the state unchanged (the error return carries no new state), while
`add_file` succeeds: it appends a fresh blob row and replaces the existing
file binding, which afterwards is the single `(tree, name)` row and points at
the fresh blob id. -/
theorem add_duplicate_name_behavior (db : Database) (t : Nat) (n : String)
    (body body' : Bytes)
    (hs : db.script_binding_exists t n = true)
    (_hf : db.file_binding_exists t n = true) :
    db.add_script t n body = .error .duplicateName ∧
    (db.add_file t n body').blobs_table_len = db.blobs_table_len + 1 ∧
    ((db.add_file t n body').tree_files.filter
        (fun b => b.tree_id == t && b.name == n)).map (·.blob_id)
      = [db.blobs_table_len + 1] := by
  refine ⟨?_, ?_, ?_⟩
  · simp [Database.add_script, hs]
  · simp [Database.add_file, Database.blobs_table_len]
  · simp only [Database.add_file, Database.blobs_table_len, List.filter_append]
    rw [List.filter_filter]
    simp

/-- Witness for `add_duplicate_name_behavior` on a database holding both a
script and a file named "a" under tree 1. -/
theorem add_duplicate_name_behavior_witness :
    db_dup_both.add_script 1 "a" [9] = .error .duplicateName ∧
    (db_dup_both.add_file 1 "a" [9]).blobs_table_len
      = db_dup_both.blobs_table_len + 1 ∧
    ((db_dup_both.add_file 1 "a" [9]).tree_files.filter
        (fun b => b.tree_id == 1 && b.name == "a")).map (·.blob_id)
      = [db_dup_both.blobs_table_len + 1] :=
  add_duplicate_name_behavior db_dup_both 1 "a" [9] [9] (by decide) (by decide)

/-!
C2. The orphan-blob sweep computes its referenced set from `tree_scripts`
alone (`Database::tree_script_blob_ids`), so a blob referenced only by a file
binding is offered for pruning and can be tombstoned; blobs referenced by a
script binding are genuinely safe.
-/

/-- C2 counterexample: a blob referenced by a file binding (and by no script)
is tombstoned by the sweep when the operator confirms: the claim's "referenced
by at least one binding of either kind" safety does not hold. -/
theorem prune_blobs_file_referenced_cex :
    (1 ∈ db_file_ref.tree_files.map (·.blob_id)) ∧
    (prune_blobs db_file_ref (fun _ => true)).blob_row 1 = some none := by
  decide

/-- One sweep iteration leaves every blob row whose rowid is in the referenced
set untouched (rowids are 1-based, and the iteration variable is too). -/
theorem prune_blobs_step_preserves_ref (refs : List Nat) (answers : Nat → Bool)
    (id r : Nat) (hid : id ∈ refs) (h1 : 1 ≤ id) (hr : 1 ≤ r) (db : Database) :
    (prune_blobs_step refs answers db r).blob_row id = db.blob_row id := by
  unfold prune_blobs_step
  by_cases hc : r ∈ refs
  · simp [hc]
  · have hne : r ≠ id := fun he => hc (he ▸ hid)
    rw [if_neg (show ¬(refs.contains r = true) from by simpa using hc)]
    split
    · split
      · simp only [Database.nullify_blob, Database.blob_row]
        exact List.getElem?_set_ne (by omega)
      · rfl
    · rfl

/-- The whole loop, over any list of 1-based rowids, preserves every blob row
whose rowid is in the referenced set. -/
theorem prune_blobs_foldl_preserves_ref (refs : List Nat) (answers : Nat → Bool)
    (id : Nat) (hid : id ∈ refs) (h1 : 1 ≤ id) :
    ∀ (l : List Nat), (∀ r ∈ l, 1 ≤ r) → ∀ db : Database,
      (l.foldl (prune_blobs_step refs answers) db).blob_row id = db.blob_row id := by
  intro l
  induction l with
  | nil => intro _ db; rfl
  | cons r l ih =>
    intro hall db
    have hr : 1 ≤ r := hall r (by simp)
    calc ((r :: l).foldl (prune_blobs_step refs answers) db).blob_row id
        = (l.foldl (prune_blobs_step refs answers)
            (prune_blobs_step refs answers db r)).blob_row id := rfl
      _ = (prune_blobs_step refs answers db r).blob_row id :=
          ih (fun r' hr' => hall r' (by simp [hr'])) _
      _ = db.blob_row id :=
          prune_blobs_step_preserves_ref refs answers id r hid h1 hr db

/-- C2 (amended): the orphan-blob sweep never tombstones a blob id that is
referenced by at least one *script* binding — for every database state and
every sequence of operator answers, such a row is left exactly as it was.
(The referenced set is computed from script bindings only; file-only
references are not protected, see the counterexample.) -/
theorem prune_blobs_never_tombstones_script_ref (db : Database)
    (answers : Nat → Bool) (id : Nat)
    (hid : id ∈ db.tree_script_blob_ids) (h1 : 1 ≤ id) :
    (prune_blobs db answers).blob_row id = db.blob_row id := by
  unfold prune_blobs
  refine prune_blobs_foldl_preserves_ref _ answers id hid h1 _ ?_ db
  intro r hr
  rcases List.mem_range'.1 hr with ⟨i, _, rfl⟩
  omega

/-- Witness for `prune_blobs_never_tombstones_script_ref`: a blob referenced
by the script "build" survives a sweep in which the operator answers yes to
everything. -/
theorem prune_blobs_never_tombstones_script_ref_witness :
    (prune_blobs db_script_ref (fun _ => true)).blob_row 1
      = db_script_ref.blob_row 1 :=
  prune_blobs_never_tombstones_script_ref db_script_ref (fun _ => true) 1
    (by decide) (by decide)

/-!
C10. No operation deletes a `blobs` row: removals only touch `tree_scripts` /
`trees`, tombstoning is `UPDATE ... SET body = NULL`, and the adds only
append.  So an allocated blob rowid stays an allocated row forever.
-/

/-- One sweep iteration never changes the number of blob rows. -/
theorem prune_blobs_step_length (refs : List Nat) (answers : Nat → Bool)
    (db : Database) (r : Nat) :
    (prune_blobs_step refs answers db r).blobs.length = db.blobs.length := by
  unfold prune_blobs_step
  split
  · rfl
  · split
    · split
      · simp [Database.nullify_blob]
      · rfl
    · rfl

/-- The whole sweep never changes the number of blob rows. -/
theorem prune_blobs_foldl_length (refs : List Nat) (answers : Nat → Bool) :
    ∀ (l : List Nat) (db : Database),
      (l.foldl (prune_blobs_step refs answers) db).blobs.length
        = db.blobs.length := by
  intro l
  induction l with
  | nil => intro db; rfl
  | cons r l ih =>
    intro db
    calc ((r :: l).foldl (prune_blobs_step refs answers) db).blobs.length
        = (l.foldl (prune_blobs_step refs answers)
            (prune_blobs_step refs answers db r)).blobs.length := rfl
      _ = (prune_blobs_step refs answers db r).blobs.length := ih _
      _ = db.blobs.length := prune_blobs_step_length refs answers db r

/-- No single operation shrinks the `blobs` table. -/
theorem apply_op_blobs_len_mono (db : Database) (op : Op) :
    db.blobs.length ≤ (apply_op db op).blobs.length := by
  cases op with
  | addScript t n b =>
    simp only [apply_op, Database.add_script]
    split <;> simp [Except.toOption]
  | updateScript t n b =>
    simp only [apply_op, Database.update_script]
    rcases db.query_script_id_from_name t n with _ | i <;> simp [Except.toOption]
  | removeScript t n => exact Nat.le_refl _
  | addNewTree p =>
    simp only [apply_op, Database.add_new_tree]
    split <;> simp [Except.toOption]
  | removeTree t => exact Nat.le_refl _
  | addScriptDescription t n d => exact Nat.le_refl _
  | renameScript o nw =>
    simp only [apply_op, Database.rename_script]
    split <;> simp [Except.toOption]
  | addFile t n b => simp [apply_op, Database.add_file]
  | cloneTree s d => exact Nat.le_refl _
  | nullifyBlob i => simp [apply_op, Database.nullify_blob]
  | pruneBlobs answers =>
    simp only [apply_op, prune_blobs]
    rw [prune_blobs_foldl_length]

/-- No operation sequence shrinks the `blobs` table. -/
theorem foldl_apply_op_blobs_len_mono (ops : List Op) :
    ∀ db : Database, db.blobs.length ≤ (ops.foldl apply_op db).blobs.length := by
  induction ops with
  | nil => intro db; exact Nat.le_refl _
  | cons op ops ih =>
    intro db
    exact Nat.le_trans (apply_op_blobs_len_mono db op) (ih (apply_op db op))

/-- C10: a blob rowid once allocated stays an allocated row across every
sequence of operations — removing bindings, removing trees, pruning and
tombstoning all leave the row in place (tombstoning only nulls its content). -/
theorem blob_rows_never_deleted (ops : List Op) (db : Database) (id : Nat)
    (h : db.blob_row id ≠ none) :
    (ops.foldl apply_op db).blob_row id ≠ none := by
  unfold Database.blob_row at h ⊢
  intro hcon
  have hlt : id - 1 < db.blobs.length := by
    by_contra hge
    exact h (List.getElem?_eq_none (by omega))
  have := foldl_apply_op_blobs_len_mono ops db
  have := List.getElem?_eq_none_iff.1 hcon
  omega

/-- Witness for `blob_rows_never_deleted`: blob row 1 survives removing its
binding, removing its tree, a confirm-everything prune sweep, and a direct
tombstoning. -/
theorem blob_rows_never_deleted_witness :
    ([Op.removeScript 1 "build", Op.removeTree 1,
      Op.pruneBlobs (fun _ => true), Op.nullifyBlob 1].foldl apply_op
        db_script_ref).blob_row 1 ≠ none :=
  blob_rows_never_deleted _ db_script_ref 1 (by decide)

/-!
C3. `find_root_for_path` (src/lib.rs:37) walks `path, parent(path), ...` and
returns the first registered tree, i.e. the nearest registered ancestor.
-/

/-- Unfolding of the walk at the filesystem root: only the root itself is
tried. -/
theorem find_root_go_nil (db : Database) (fuel : Nat) :
    find_root_go db fuel []
      = (db.query_tree []).map (fun id => (id, ([] : PathT))) := by
  cases fuel <;> (cases hq : db.query_tree [] <;> simp [find_root_go, hq])

/-- Unfolding of the walk at a non-root path with positive fuel. -/
theorem find_root_go_cons (db : Database) (f : Nat) (a : String) (as : PathT) :
    find_root_go db (f + 1) (a :: as)
      = match db.query_tree (a :: as) with
        | some id => some (id, a :: as)
        | none => find_root_go db f (a :: as).dropLast := rfl

/-- Ancestor chain of the filesystem root. -/
theorem ancestors_go_nil (fuel : Nat) : ancestors_go fuel [] = [[]] := by
  cases fuel <;> rfl

/-- Ancestor chain of a non-root path with positive fuel. -/
theorem ancestors_go_cons (f : Nat) (a : String) (as : PathT) :
    ancestors_go (f + 1) (a :: as)
      = (a :: as) :: ancestors_go f (a :: as).dropLast := rfl

/-- Every path in the ancestor chain is no longer than the starting path. -/
theorem ancestors_go_length_le :
    ∀ (fuel : Nat) (p q : PathT), p.length ≤ fuel →
      q ∈ ancestors_go fuel p → q.length ≤ p.length := by
  intro fuel
  induction fuel with
  | zero =>
    intro p q hlen hq
    have hp : p = [] := List.eq_nil_of_length_eq_zero (Nat.le_zero.1 hlen)
    subst hp
    rw [ancestors_go_nil] at hq
    simp at hq
    subst hq
    exact Nat.le_refl _
  | succ f ih =>
    intro p q hlen hq
    match p with
    | [] =>
      rw [ancestors_go_nil] at hq
      simp at hq
      subst hq
      exact Nat.le_refl _
    | a :: as =>
      rw [ancestors_go_cons] at hq
      rcases List.mem_cons.1 hq with rfl | hmem
      · exact Nat.le_refl _
      · have hdrop : (a :: as).dropLast.length ≤ f := by
          simp [List.length_dropLast] at hlen ⊢
          omega
        have h1 := ih (a :: as).dropLast q hdrop hmem
        have h2 : (a :: as).dropLast.length < (a :: as).length := by
          simp [List.length_dropLast]
        omega

/-- The resolution loop, with enough fuel, returns `none` exactly when no
visited ancestor is registered, and otherwise returns the first — hence
longest, hence nearest — registered ancestor together with its tree id. -/
theorem find_root_go_spec (db : Database) :
    ∀ (fuel : Nat) (p : PathT), p.length ≤ fuel →
      (find_root_go db fuel p = none ↔
        ∀ q ∈ ancestors_go fuel p, db.query_tree q = none) ∧
      (∀ id q, find_root_go db fuel p = some (id, q) →
        q ∈ ancestors_go fuel p ∧ db.query_tree q = some id ∧
        ∀ q' ∈ ancestors_go fuel p, q.length < q'.length →
          db.query_tree q' = none) := by
  have nil_case : ∀ fuel : Nat,
      (find_root_go db fuel [] = none ↔
        ∀ q ∈ ancestors_go fuel [], db.query_tree q = none) ∧
      (∀ id q, find_root_go db fuel [] = some (id, q) →
        q ∈ ancestors_go fuel [] ∧ db.query_tree q = some id ∧
        ∀ q' ∈ ancestors_go fuel [], q.length < q'.length →
          db.query_tree q' = none) := by
    intro fuel
    rw [find_root_go_nil, ancestors_go_nil]
    cases hq : db.query_tree [] with
    | none => simp [hq]
    | some id0 =>
      constructor
      · simp [hq]
      · intro id q h
        simp only [Option.map_some'] at h
        cases h
        refine ⟨by simp, hq, ?_⟩
        intro q' hq' hlt
        simp at hq'
        subst hq'
        simp at hlt
  intro fuel
  induction fuel with
  | zero =>
    intro p hlen
    have hp : p = [] := List.eq_nil_of_length_eq_zero (Nat.le_zero.1 hlen)
    subst hp
    exact nil_case 0
  | succ f ih =>
    intro p hlen
    match p with
    | [] => exact nil_case (f + 1)
    | a :: as =>
      have hdrop : (a :: as).dropLast.length ≤ f := by
        simp [List.length_dropLast] at hlen ⊢
        omega
      have IH := ih (a :: as).dropLast hdrop
      cases hq : db.query_tree (a :: as) with
      | some id0 =>
        have heq : find_root_go db (f + 1) (a :: as) = some (id0, a :: as) := by
          rw [find_root_go_cons]
          simp only [hq]
        constructor
        · constructor
          · intro h
            rw [heq] at h
            exact absurd h (by simp)
          · intro hall
            exact absurd (hall (a :: as) (by rw [ancestors_go_cons]; simp))
              (by simp [hq])
        · intro id q h
          rw [heq] at h
          cases h
          refine ⟨by rw [ancestors_go_cons]; simp, hq, ?_⟩
          intro q' hq' hlt
          rw [ancestors_go_cons] at hq'
          rcases List.mem_cons.1 hq' with rfl | hmem
          · omega
          · have h1 := ancestors_go_length_le f _ q' hdrop hmem
            have h2 : (a :: as).dropLast.length < (a :: as).length := by
              simp [List.length_dropLast]
            omega
      | none =>
        have heq : find_root_go db (f + 1) (a :: as)
            = find_root_go db f (a :: as).dropLast := by
          rw [find_root_go_cons]
          simp only [hq]
        constructor
        · rw [heq, ancestors_go_cons]
          constructor
          · intro h q hmem
            rcases List.mem_cons.1 hmem with rfl | hmem'
            · exact hq
            · exact IH.1.1 h q hmem'
          · intro hall
            exact IH.1.2 (fun q hmem => hall q (List.mem_cons_of_mem _ hmem))
        · intro id q h
          rw [heq] at h
          obtain ⟨hmem, hqt, hmin⟩ := IH.2 id q h
          refine ⟨by rw [ancestors_go_cons]; exact List.mem_cons_of_mem _ hmem,
            hqt, ?_⟩
          intro q' hq' hlt
          rw [ancestors_go_cons] at hq'
          rcases List.mem_cons.1 hq' with rfl | hmem'
          · exact hq
          · exact hmin q' hmem' hlt

/-- C3: resolution returns `none` exactly when no ancestor of the path
(the path itself included, walking parent by parent up to the filesystem
root) is a registered tree; otherwise it returns a registered ancestor paired
with its tree id such that every strictly nearer ancestor (longer path in the
chain) is unregistered — i.e. the nearest registered ancestor. -/
theorem find_root_nearest_ancestor (db : Database) (p : PathT) :
    (find_root_for_path db p = none ↔
      ∀ q ∈ ancestors p, db.query_tree q = none) ∧
    (∀ id q, find_root_for_path db p = some (id, q) →
      q ∈ ancestors p ∧ db.query_tree q = some id ∧
      ∀ q' ∈ ancestors p, q.length < q'.length → db.query_tree q' = none) :=
  find_root_go_spec db p.length p (Nat.le_refl _)

/-- Witness for `find_root_nearest_ancestor`: with /a registered, resolving
/a/b yields tree 1 at the ancestor /a, which is indeed a registered ancestor
of /a/b. -/
theorem find_root_nearest_ancestor_witness :
    ["a"] ∈ ancestors ["a", "b"] ∧ db_one_tree.query_tree ["a"] = some 1 :=
  have h := (find_root_nearest_ancestor db_one_tree ["a", "b"]).2 1 ["a"]
    (by decide)
  ⟨h.1, h.2.1⟩
